import Mathlib

/-!
Shallow embedding of the `TargetObject` module of the DCL shooting-range demo
(`src/src/index.ts`): a pooled entity lifecycle manager (Create / Enable /
Disable / DisableAll / Destroy / DestroyAll) plus a per-tick waypoint-following
movement system (`targetProcessingMoving`).

Modelling choices:
* Entity handles are natural numbers; `engine.addEntity` hands out
  `nextEntity` and increments it.
* JavaScript numbers are modelled as rationals (`ℚ`); every constant that
  appears in the source (`0.05`, `0.02`, `1`, `0`) is exactly representable.
* `Math.sqrt` is a host-library primitive with no exact rational counterpart;
  the scheduler is parametrised by the square-root function it calls.
* Component reads on an entity that lacks the component (`get` / `getMutable`
  in the SDK) throw; operations that perform such reads return `Option`,
  `none` standing for the thrown exception (the partially mutated state of an
  aborted call is not tracked, no claim inspects it).
-/

namespace TargetObject

/-- Opaque entity handle owned by the engine substrate. -/
abbrev Entity : Type := Nat

/-- A JavaScript `{x, y, z}` vector, used for positions, scales, directions. -/
structure Vec3 where
  x : ℚ
  y : ℚ
  z : ℚ
  deriving Repr, DecidableEq

/-- The `TARGET_TYPE` enum from the source: `STATIC = 0`, `MOVING = 1`. -/
inductive TARGET_TYPE where
  | STATIC
  | MOVING
  deriving Repr, DecidableEq

/-- Interface `TargetDataObject`: the data required to create a new target object. -/
structure TargetDataObject where
  type : TARGET_TYPE
  pos : Vec3
  deriving Repr, DecidableEq

/-- Record `TargetStaticComponentData`: component record of static targets. -/
structure TargetStaticComponentData where
  isActive : Bool
  deriving Repr, DecidableEq

/-- Record `TargetMovingComponentData`: component record of moving targets.
`indexCur` is the currently targeted waypoint index; `normal` the cached
normalized movement direction. -/
structure TargetMovingComponentData where
  isActive : Bool
  isProcessing : Bool
  speed : ℚ
  indexCur : Nat
  waypoints : List Vec3
  normal : Vec3
  deriving Repr, DecidableEq

/-- The transform record the engine substrate stores per entity (the fields
this module touches: `position` and `scale`). -/
structure TransformData where
  position : Vec3
  scale : Vec3
  deriving Repr, DecidableEq

/-- The mutable state the module works on: the engine's per-entity stores
(transforms and the two target components) plus the module-level
`pooledObjects` buckets and the engine's fresh-handle counter. -/
structure World where
  pooled : TARGET_TYPE → List Entity
  transform : Entity → Option TransformData
  staticComp : Entity → Option TargetStaticComponentData
  movingComp : Entity → Option TargetMovingComponentData
  nextEntity : Entity

/-! ### The movement scheduler (`targetProcessingMoving`) -/

/-- The arrival check of `targetProcessingMoving` (source lines 124–128):
the target entity at position `pos` has reached waypoint `w` when each
coordinate difference is below the per-axis tolerance (`0.05` on x and y,
`0.02` on z). -/
def arrivalTest (pos w : Vec3) : Bool :=
  |pos.x - w.x| < 0.05 && |pos.y - w.y| < 0.05 && |pos.z - w.z| < 0.02

/-- The arrival branch of `targetProcessingMoving` (source lines 129–145),
run when `arrivalTest` succeeds: increment `indexCur`, wrap to `0` at the end
of the waypoint list, recompute the direction to the new waypoint and store
its normalization in `normal`.  `sqrt` models `Math.sqrt`.  The wrapped index
is in bounds whenever the list is non-empty, so the `getD` default is never
read in the situations the source reaches this code in. -/
def arrivalUpdate (sqrt : ℚ → ℚ) (c : TargetMovingComponentData) (pos : Vec3) :
    TargetMovingComponentData :=
  let idx0 := c.indexCur + 1
  let idx := if c.waypoints.length ≤ idx0 then 0 else idx0
  let wNew := c.waypoints.getD idx ⟨0, 0, 0⟩
  let direction : Vec3 := ⟨wNew.x - pos.x, wNew.y - pos.y, wNew.z - pos.z⟩
  let len := sqrt (direction.x * direction.x + direction.y * direction.y +
    direction.z * direction.z)
  { c with indexCur := idx,
           normal := ⟨direction.x / len, direction.y / len, direction.z / len⟩ }

/-- The body of the `targetProcessingMoving` system loop (source lines
117–150) for one entity carrying a `TargetMovingComponentData`: given the
frame time `dt`, the entity's component `c` and its transform position `pos`,
produce the updated component and position.  Returns `none` when the source
would throw (reading `waypoints[indexCur]` out of bounds yields `undefined`
and the subsequent field access throws).  Entities are processed
independently, so the system is fully described by this per-entity step. -/
def targetProcessingMoving (sqrt : ℚ → ℚ) (dt : ℚ)
    (c : TargetMovingComponentData) (pos : Vec3) :
    Option (TargetMovingComponentData × Vec3) :=
  if !c.isActive || !c.isProcessing then some (c, pos)
  else
    match c.waypoints.get? c.indexCur with
    | none => none
    | some w =>
      let c' := if arrivalTest pos w then arrivalUpdate sqrt c pos else c
      some (c', ⟨pos.x + dt * c'.speed * c'.normal.x,
                 pos.y + dt * c'.speed * c'.normal.y,
                 pos.z + dt * c'.speed * c'.normal.z⟩)

/-- Runs `n` consecutive scheduler ticks on one entity, each with frame time `dt`.
-/
def tickN (sqrt : ℚ → ℚ) (dt : ℚ) (n : Nat)
    (s : TargetMovingComponentData × Vec3) :
    Option (TargetMovingComponentData × Vec3) :=
  match n with
  | 0 => some s
  | n + 1 => do tickN sqrt dt n (← targetProcessingMoving sqrt dt s.1 s.2)

/-! ### The pool manager -/

/-- Store a transform record for an entity (covers `Transform.create` on a
handle fresh from `engine.addEntity`, and writes through
`Transform.getMutable`). -/
def updTransform (w : World) (e : Entity) (t : TransformData) : World :=
  { w with transform := fun a => if a = e then some t else w.transform a }

/-- Store a static-target component record for an entity. -/
def updStatic (w : World) (e : Entity) (c : TargetStaticComponentData) :
    World :=
  { w with staticComp := fun a => if a = e then some c else w.staticComp a }

/-- Store a moving-target component record for an entity. -/
def updMoving (w : World) (e : Entity) (c : TargetMovingComponentData) :
    World :=
  { w with movingComp := fun a => if a = e then some c else w.movingComp a }

/-- Read `isActive` of the component record of kind `ty` on entity `e`
(`TargetStaticComponent.get(e).isActive` resp. the moving variant); `none`
models the exception the SDK throws when the component is absent. -/
def isActiveOf (w : World) (ty : TARGET_TYPE) (e : Entity) : Option Bool :=
  match ty with
  | .STATIC => (w.staticComp e).map (·.isActive)
  | .MOVING => (w.movingComp e).map (·.isActive)

/-- Function `Enable` (source lines 209–231): reactivate the component of the
requested kind, reposition the entity to `targetData.pos`, and restore unit
scale (the soft-state workaround).  Returns the entity, as the source does.
-/
def Enable (w : World) (entity : Entity) (targetData : TargetDataObject) :
    Option (Entity × World) := do
  let w ← match targetData.type with
    | .STATIC => do
      let c ← w.staticComp entity
      pure (updStatic w entity { c with isActive := true })
    | .MOVING => do
      let c ← w.movingComp entity
      pure (updMoving w entity { c with isActive := true })
  let t ← w.transform entity
  let w := updTransform w entity { t with position := targetData.pos }
  let t ← w.transform entity
  pure (entity, updTransform w entity { t with scale := ⟨1, 1, 1⟩ })

/-- Result of `Create`'s reuse scan over a pool bucket. -/
inductive ScanResult where
  | reused : Entity → World → ScanResult
  | notFound : ScanResult

/-- The reuse loop of `Create` (source lines 160–175): walk the bucket in
order; on the first entity whose component of the requested kind is
inactive, `Enable` it and return it. -/
def scanPool (w : World) (targetData : TargetDataObject) :
    List Entity → Option ScanResult
  | [] => some .notFound
  | e :: rest =>
    match isActiveOf w targetData.type e with
    | none => none
    | some true => scanPool w targetData rest
    | some false =>
      match Enable w e targetData with
      | none => none
      | some (e', w') => some (.reused e' w')

/-- The allocation block of `Create` (source lines 177–202), run when the
reuse scan found nothing: `engine.addEntity` hands out `w.nextEntity`; the
entity gets a transform at `targetData.pos` (engine default scale `(1,1,1)`),
a freshly initialised component of the requested kind (fields not given in
the source's `create` call take the SDK schema defaults: numbers `0`,
vectors `(0,0,0)`, arrays `[]`), and is appended to the matching bucket.
The `GltfContainer` visual attachment is outside the modelled state. -/
def createFreshWorld (w : World) (targetData : TargetDataObject) : World :=
  let entity := w.nextEntity
  let w1 := { w with nextEntity := w.nextEntity + 1 }
  let w2 := updTransform w1 entity ⟨targetData.pos, ⟨1, 1, 1⟩⟩
  let w3 := match targetData.type with
    | .STATIC => updStatic w2 entity ⟨true⟩
    | .MOVING => updMoving w2 entity ⟨true, false, 0, 0, [], ⟨0, 0, 0⟩⟩
  { w3 with pooled := fun ty =>
    if ty = targetData.type then w3.pooled ty ++ [entity] else w3.pooled ty }

/-- Function `Create` (source lines 156–206): try to recycle the first inactive
entity of the bucket for `targetData.type`; otherwise allocate a fresh
entity (see `createFreshWorld`) and return its handle. -/
def Create (w : World) (targetData : TargetDataObject) :
    Option (Entity × World) :=
  match scanPool w targetData (w.pooled targetData.type) with
  | none => none
  | some (.reused e w') => some (e, w')
  | some .notFound => some (w.nextEntity, createFreshWorld w targetData)

/-- Function `Disable` (source lines 247–262): clear `isActive` (and, for moving
targets, `isProcessing`) on the component of kind `ty`, then hide the entity
by zeroing its scale.  The source performs two separate `getMutable` reads
for the moving case; both are modelled. -/
def Disable (w : World) (entity : Entity) (ty : TARGET_TYPE) :
    Option World := do
  let w ← match ty with
    | .STATIC => do
      let c ← w.staticComp entity
      pure (updStatic w entity { c with isActive := false })
    | .MOVING => do
      let c ← w.movingComp entity
      let w := updMoving w entity { c with isActive := false }
      let c ← w.movingComp entity
      pure (updMoving w entity { c with isProcessing := false })
  let t ← w.transform entity
  pure (updTransform w entity { t with scale := ⟨0, 0, 0⟩ })

/-- The inner loop of `DisableAll` over one bucket (`Disable` never touches
the buckets, so iterating over the snapshot list is exact). -/
def disableLoop (i : TARGET_TYPE) : World → List Entity → Option World
  | w, [] => some w
  | w, e :: rest => do disableLoop i (← Disable w e i) rest

/-- Function `DisableAll` (source lines 234–245): disable every pooled object, static
bucket first, each bucket in insertion order. -/
def DisableAll (w : World) : Option World := do
  let w ← disableLoop .STATIC w (w.pooled .STATIC)
  disableLoop .MOVING w (w.pooled .MOVING)

/-- Function `Destroy` (source lines 279–281): `engine.removeEntity` permanently
removes the entity and all its components from the engine; the pool buckets
are not touched. -/
def Destroy (w : World) (entity : Entity) : World :=
  { w with
    transform := fun a => if a = entity then none else w.transform a,
    staticComp := fun a => if a = entity then none else w.staticComp a,
    movingComp := fun a => if a = entity then none else w.movingComp a }

/-- The inner loop of `DestroyAll` over bucket `i` (source lines 270–273):
while the bucket is non-empty, pop its last element and `Destroy` it. -/
def destroyLoop (i : TARGET_TYPE) (w : World) : World :=
  if h : 0 < (w.pooled i).length then
    let obj := (w.pooled i).getLast (List.length_pos.mp h)
    destroyLoop i (Destroy
      { w with pooled := fun ty =>
          if ty = i then (w.pooled ty).dropLast else w.pooled ty } obj)
  else w
termination_by (w.pooled i).length
decreasing_by
  simp only [Destroy, if_pos rfl, if_true, dite_true, List.length_dropLast]
  omega

/-- Function `DestroyAll` (source lines 265–277): run the pop-and-destroy loop on the
static bucket, then on the moving bucket. -/
def DestroyAll (w : World) : World :=
  destroyLoop .MOVING (destroyLoop .STATIC w)

/-- The position stored in an entity's transform. -/
def positionOf (w : World) (e : Entity) : Option Vec3 :=
  (w.transform e).map (·.position)

/-! ### Concrete scenario used to exercise the pool operations -/

/-- The module's initial state: both buckets empty (`[[],[]]`), no entities.
-/
def emptyWorld : World :=
  ⟨fun _ => [], fun _ => none, fun _ => none, fun _ => none, 0⟩

/-- Sample creation request for a static target. -/
def tdS1 : TargetDataObject := ⟨.STATIC, ⟨1, 2, 3⟩⟩

/-- Second sample creation request for a static target. -/
def tdS2 : TargetDataObject := ⟨.STATIC, ⟨4, 5, 6⟩⟩

/-- Sample creation request for a moving target. -/
def tdM1 : TargetDataObject := ⟨.MOVING, ⟨7, 8, 9⟩⟩

/-- State after `Create(tdS1)` on the initial state (fresh allocation of
entity `0`). -/
def wEx1 : World := createFreshWorld emptyWorld tdS1

/-- State after additionally creating a moving target (fresh allocation of
entity `1`). -/
def wEx2 : World := createFreshWorld wEx1 tdM1

/-- State after `Disable(0, STATIC)` in `wEx1`. -/
def wEx1d : World := (Disable wEx1 0 .STATIC).getD emptyWorld

/-- State after `Create(tdS2)` in `wEx1d` (reuse of entity `0`). -/
def wEx1r : World := (Create wEx1d tdS2).elim emptyWorld Prod.snd

/-- State after `DisableAll` in `wEx2`. -/
def wEx2d : World := (DisableAll wEx2).getD emptyWorld

/-- State after `Create(tdS2)` in `wEx1` (second fresh static allocation,
entity `1`). -/
def wEx1b : World := createFreshWorld wEx1 tdS2

/-- Sample moving component sitting on waypoint `1` of a two-waypoint loop.
-/
def cArrive : TargetMovingComponentData :=
  ⟨true, true, 1, 1, [⟨0, 0, 0⟩, ⟨10, 0, 0⟩], ⟨0, 0, 0⟩⟩

/-- Sample moving component with `isProcessing = false`. -/
def cIdle : TargetMovingComponentData :=
  ⟨true, false, 3, 0, [⟨5, 5, 5⟩], ⟨1, 0, 0⟩⟩

/-- Sample moving component travelling along `(1,0,0)` at speed `2`, far
from its waypoint. -/
def cCruise : TargetMovingComponentData :=
  ⟨true, true, 2, 0, [⟨100, 0, 0⟩], ⟨1, 0, 0⟩⟩

/-- Sample moving component as `Create` leaves it after the caller set
waypoints, a positive speed and `isProcessing = true`: the cached direction
still holds the schema-default zero vector. -/
def cZero : TargetMovingComponentData :=
  ⟨true, true, 5, 0, [⟨100, 0, 0⟩], ⟨0, 0, 0⟩⟩

/-! ### Helper lemmas about the pool operations -/

/-- Everything a successful `Enable` guarantees: the passed entity is
returned; the buckets and the fresh-handle counter are untouched; the
component of the requested kind on the entity is active; the transform holds
the requested position and unit scale; no other entity is touched. -/
theorem Enable_inv {w : World} {e : Entity} {td : TargetDataObject}
    {e' : Entity} {w' : World} (h : Enable w e td = some (e', w')) :
    e' = e ∧
    w'.pooled = w.pooled ∧
    w'.nextEntity = w.nextEntity ∧
    isActiveOf w' td.type e = some true ∧
    w'.transform e = some ⟨td.pos, ⟨1, 1, 1⟩⟩ ∧
    (∀ a, a ≠ e → w'.transform a = w.transform a ∧
      w'.staticComp a = w.staticComp a ∧ w'.movingComp a = w.movingComp a) :=
  by
  obtain ⟨ty, pos⟩ := td
  cases ty
  case STATIC =>
    cases hc : w.staticComp e with
    | none => simp [Enable, hc] at h
    | some c =>
      cases ht : w.transform e with
      | none => simp [Enable, hc, updStatic, ht] at h
      | some t =>
        simp [Enable, hc, updStatic, updTransform, ht] at h
        obtain ⟨he, hw⟩ := h
        subst he
        subst hw
        refine ⟨rfl, rfl, rfl, ?_, ?_, ?_⟩
        · simp [isActiveOf]
        · simp
        · intro a ha
          simp [ha]
  case MOVING =>
    cases hc : w.movingComp e with
    | none => simp [Enable, hc] at h
    | some c =>
      cases ht : w.transform e with
      | none => simp [Enable, hc, updMoving, ht] at h
      | some t =>
        simp [Enable, hc, updMoving, updTransform, ht] at h
        obtain ⟨he, hw⟩ := h
        subst he
        subst hw
        refine ⟨rfl, rfl, rfl, ?_, ?_, ?_⟩
        · simp [isActiveOf]
        · simp
        · intro a ha
          simp [ha]

/-- Everything a successful `Disable` guarantees: buckets and counter
untouched; the component of kind `ty` on the entity is inactive (and, for
moving targets, no longer processing); the entity's transform survives with
zero scale; no other entity is touched; the store of the other kind is not
touched at all. -/
theorem Disable_inv {w : World} {e : Entity} {ty : TARGET_TYPE} {w' : World}
    (h : Disable w e ty = some w') :
    w'.pooled = w.pooled ∧
    w'.nextEntity = w.nextEntity ∧
    isActiveOf w' ty e = some false ∧
    (ty = .MOVING → (w'.movingComp e).map (·.isProcessing) = some false) ∧
    (∃ t, w.transform e = some t ∧
      w'.transform e = some { t with scale := ⟨0, 0, 0⟩ }) ∧
    (∀ a, a ≠ e → w'.transform a = w.transform a ∧
      w'.staticComp a = w.staticComp a ∧ w'.movingComp a = w.movingComp a) ∧
    (ty = .STATIC → ∀ a, w'.movingComp a = w.movingComp a) ∧
    (ty = .MOVING → ∀ a, w'.staticComp a = w.staticComp a) := by
  cases ty
  case STATIC =>
    cases hc : w.staticComp e with
    | none => simp [Disable, hc] at h
    | some c =>
      cases ht : w.transform e with
      | none => simp [Disable, hc, updStatic, ht] at h
      | some t =>
        simp [Disable, hc, updStatic, updTransform, ht] at h
        subst h
        refine ⟨rfl, rfl, ?_, by simp, ⟨t, rfl, by simp⟩, ?_, ?_, by simp⟩
        · simp [isActiveOf]
        · intro a ha
          simp [ha]
        · intro _ a
          simp
  case MOVING =>
    cases hc : w.movingComp e with
    | none => simp [Disable, hc] at h
    | some c =>
      cases ht : w.transform e with
      | none => simp [Disable, hc, updMoving, ht] at h
      | some t =>
        simp [Disable, hc, updMoving, updTransform, ht] at h
        subst h
        refine ⟨rfl, rfl, ?_, by simp, ⟨t, rfl, by simp⟩,
          ?_, by simp, ?_⟩
        · simp [isActiveOf]
        · intro a ha
          simp [ha]
        · intro _ a
          simp

/-- A bucket whose entries all carry an active component of the matching
kind yields no reuse candidate. -/
theorem scanPool_notFound_of_all_active {w : World} {td : TargetDataObject}
    {L : List Entity}
    (h : ∀ a ∈ L, isActiveOf w td.type a = some true) :
    scanPool w td L = some .notFound := by
  induction L with
  | nil => rfl
  | cons e rest ih =>
    have he := h e (by simp)
    simp only [scanPool, he]
    exact ih fun a ha => h a (by simp [ha])

/-- Conversely, a scan that terminates without a reuse candidate has read an
active component on every bucket entry. -/
theorem all_active_of_scanPool_notFound {w : World} {td : TargetDataObject}
    {L : List Entity} (h : scanPool w td L = some .notFound) :
    ∀ a ∈ L, isActiveOf w td.type a = some true := by
  induction L with
  | nil => simp
  | cons e rest ih =>
    intro a ha
    cases hb : isActiveOf w td.type e with
    | none => simp [scanPool, hb] at h
    | some b =>
      cases b with
      | false =>
        cases hE : Enable w e td with
        | none => simp [scanPool, hb, hE] at h
        | some p => simp [scanPool, hb, hE] at h
      | true =>
        rcases List.mem_cons.mp ha with rfl | ha'
        · exact hb
        · exact ih (by simpa [scanPool, hb] using h) a ha'

/-- Inversion of a successful reuse: the bucket splits into a prefix of
entries whose components were read as active, the reused entity (whose
component was read as inactive and which `Enable` re-activated), and an
unvisited remainder. -/
theorem scanPool_reused_inv {w : World} {td : TargetDataObject}
    {L : List Entity} {e : Entity} {w' : World}
    (h : scanPool w td L = some (.reused e w')) :
    ∃ L1 L2, L = L1 ++ e :: L2 ∧
      (∀ a ∈ L1, isActiveOf w td.type a = some true) ∧
      isActiveOf w td.type e = some false ∧
      Enable w e td = some (e, w') := by
  induction L with
  | nil => simp [scanPool] at h
  | cons x rest ih =>
    cases hb : isActiveOf w td.type x with
    | none => simp [scanPool, hb] at h
    | some b =>
      cases b with
      | false =>
        cases hE : Enable w x td with
        | none => simp [scanPool, hb, hE] at h
        | some p =>
          obtain ⟨e1, w1⟩ := p
          have hx : e1 = x := (Enable_inv hE).1
          subst hx
          simp only [scanPool, hb, hE, Option.some.injEq] at h
          cases h
          exact ⟨[], rest, rfl, by simp, hb, hE⟩
      | true =>
        simp only [scanPool, hb] at h
        obtain ⟨L1, L2, rfl, h1, h2, h3⟩ := ih h
        refine ⟨x :: L1, L2, rfl, ?_, h2, h3⟩
        intro a ha
        rcases List.mem_cons.mp ha with rfl | ha'
        · exact hb
        · exact h1 a ha'

/-- Evaluating the scan on a bucket made of an all-active prefix, a first
inactive entity `e`, and anything after it: the scan reuses `e`. -/
theorem scanPool_append {w : World} {td : TargetDataObject}
    {L1 : List Entity} (L2 : List Entity) {e : Entity}
    (h1 : ∀ a ∈ L1, isActiveOf w td.type a = some true)
    (h2 : isActiveOf w td.type e = some false) :
    scanPool w td (L1 ++ e :: L2) =
      match Enable w e td with
      | none => none
      | some (e', w') => some (.reused e' w') := by
  induction L1 with
  | nil => simp only [List.nil_append, scanPool, h2]
  | cons x rest ih =>
    have hx := h1 x (by simp)
    simp only [List.cons_append, scanPool, hx]
    exact ih fun a ha => h1 a (by simp [ha])

/-- With every bucket entry active, `Create` takes the fresh-allocation
path. -/
theorem Create_fresh {w : World} {td : TargetDataObject}
    (hall : ∀ a ∈ w.pooled td.type, isActiveOf w td.type a = some true) :
    Create w td = some (w.nextEntity, createFreshWorld w td) := by
  simp [Create, scanPool_notFound_of_all_active hall]

/-- Buckets after a fresh allocation: the matching bucket is extended by the
new handle, the other bucket is untouched. -/
theorem createFreshWorld_pooled (w : World) (td : TargetDataObject)
    (ty : TARGET_TYPE) :
    (createFreshWorld w td).pooled ty =
      if ty = td.type then w.pooled ty ++ [w.nextEntity] else w.pooled ty := by
  obtain ⟨ty', pos⟩ := td
  cases ty' <;> cases ty <;> simp [createFreshWorld, updTransform, updStatic, updMoving]

/-- A fresh allocation advances the engine's handle counter. -/
theorem createFreshWorld_nextEntity (w : World) (td : TargetDataObject) :
    (createFreshWorld w td).nextEntity = w.nextEntity + 1 := by
  obtain ⟨ty', pos⟩ := td
  cases ty' <;> simp [createFreshWorld, updTransform, updStatic, updMoving]

/-- The freshly allocated entity's transform: requested position, engine
default scale. -/
theorem createFreshWorld_transform_self (w : World) (td : TargetDataObject) :
    (createFreshWorld w td).transform w.nextEntity =
      some ⟨td.pos, ⟨1, 1, 1⟩⟩ := by
  obtain ⟨ty', pos⟩ := td
  cases ty' <;> simp [createFreshWorld, updTransform, updStatic, updMoving]

/-- The freshly allocated entity's component of the requested kind is
active. -/
theorem createFreshWorld_isActive_self (w : World) (td : TargetDataObject) :
    isActiveOf (createFreshWorld w td) td.type w.nextEntity = some true := by
  obtain ⟨ty', pos⟩ := td
  cases ty' <;>
    simp [createFreshWorld, isActiveOf, updTransform, updStatic, updMoving]

/-- A fresh allocation touches no other entity's state. -/
theorem createFreshWorld_frame (w : World) (td : TargetDataObject)
    (a : Entity) (ha : a ≠ w.nextEntity) :
    (createFreshWorld w td).transform a = w.transform a ∧
    (createFreshWorld w td).staticComp a = w.staticComp a ∧
    (createFreshWorld w td).movingComp a = w.movingComp a := by
  obtain ⟨ty', pos⟩ := td
  cases ty' <;>
    simp [createFreshWorld, updTransform, updStatic, updMoving, ha]

/-- The component record attached on a fresh static allocation. -/
theorem createFreshWorld_static_self (w : World) (td : TargetDataObject)
    (hty : td.type = .STATIC) :
    (createFreshWorld w td).staticComp w.nextEntity = some ⟨true⟩ := by
  obtain ⟨ty', pos⟩ := td
  cases hty
  simp [createFreshWorld, updTransform, updStatic]

/-- The component record attached on a fresh moving allocation: active, not
processing, schema defaults elsewhere (speed `0`, waypoint index `0`, empty
waypoint list, zero direction vector). -/
theorem createFreshWorld_moving_self (w : World) (td : TargetDataObject)
    (hty : td.type = .MOVING) :
    (createFreshWorld w td).movingComp w.nextEntity =
      some ⟨true, false, 0, 0, [], ⟨0, 0, 0⟩⟩ := by
  obtain ⟨ty', pos⟩ := td
  cases hty
  simp [createFreshWorld, updTransform, updMoving]

/-- Reading `isActiveOf` only looks at the two component stores at the entity. -/
theorem isActiveOf_congr {w w' : World} {a : Entity}
    (hs : w'.staticComp a = w.staticComp a)
    (hm : w'.movingComp a = w.movingComp a) (ty : TARGET_TYPE) :
    isActiveOf w' ty a = isActiveOf w ty a := by
  cases ty <;> simp [isActiveOf, hs, hm]

/-- C1 (pool reuse): for any kind and positions, `Create(kind, p1)` followed
by `Disable` of the returned entity followed by `Create(kind, p2)` returns
the same entity handle as the first call, with that entity now active and
positioned at `p2`, and the bucket for that kind has the same length as
after the first `Create` (no new allocation).  Stated over any starting
state whose bucket handles predate the engine's fresh-handle counter. -/
theorem pool_reuse_create_disable_create {w : World}
    {td1 td2 : TargetDataObject} {e1 e2 : Entity} {w1 w2 w3 : World}
    (hty : td2.type = td1.type)
    (hfresh : ∀ a ∈ w.pooled td1.type, a < w.nextEntity)
    (h1 : Create w td1 = some (e1, w1))
    (h2 : Disable w1 e1 td1.type = some w2)
    (h3 : Create w2 td2 = some (e2, w3)) :
    e2 = e1 ∧
    isActiveOf w3 td1.type e1 = some true ∧
    positionOf w3 e1 = some td2.pos ∧
    (w3.pooled td1.type).length = (w1.pooled td1.type).length := by
  obtain ⟨hp2, hn2, hin2, _, _, hfr2, _, _⟩ := Disable_inv h2
  -- decompose the bucket of `w2` as an all-active prefix followed by `e1`
  have key : ∃ L1 L2, w2.pooled td1.type = L1 ++ e1 :: L2 ∧
      (∀ a ∈ L1, isActiveOf w2 td1.type a = some true) := by
    cases hs : scanPool w td1 (w.pooled td1.type) with
    | none => simp [Create, hs] at h1
    | some r =>
      cases r with
      | reused eR wR =>
        simp only [Create, hs, Option.some.injEq, Prod.mk.injEq] at h1
        obtain ⟨rfl, rfl⟩ := h1
        obtain ⟨L1, L2, hL, hact1, hinact, hEn⟩ := scanPool_reused_inv hs
        obtain ⟨_, hp1, _, _, _, hfr1⟩ := Enable_inv hEn
        refine ⟨L1, L2, by rw [hp2, hp1, hL], ?_⟩
        intro a ha
        have haw := hact1 a ha
        have hane : a ≠ eR := by
          intro hae
          rw [hae, hinact] at haw
          exact absurd (Option.some.inj haw) (by simp)
        obtain ⟨_, hs2, hm2⟩ := hfr2 a hane
        obtain ⟨_, hs1, hm1⟩ := hfr1 a hane
        rw [isActiveOf_congr (hs2.trans hs1) (hm2.trans hm1)]
        exact haw
      | notFound =>
        simp only [Create, hs, Option.some.injEq, Prod.mk.injEq] at h1
        obtain ⟨rfl, rfl⟩ := h1
        refine ⟨w.pooled td1.type, [], ?_, ?_⟩
        · rw [hp2, createFreshWorld_pooled, if_pos rfl]
        · intro a ha
          have hane : a ≠ w.nextEntity := Nat.ne_of_lt (hfresh a ha)
          obtain ⟨_, hs2, hm2⟩ := hfr2 a hane
          obtain ⟨_, hs1, hm1⟩ := createFreshWorld_frame w td1 a hane
          rw [isActiveOf_congr (hs2.trans hs1) (hm2.trans hm1)]
          exact all_active_of_scanPool_notFound hs a ha
  obtain ⟨L1, L2, hbucket, hact⟩ := key
  have hbucket2 : w2.pooled td2.type = L1 ++ e1 :: L2 := by rw [hty, hbucket]
  have hact2 : ∀ a ∈ L1, isActiveOf w2 td2.type a = some true := by
    rw [hty]; exact hact
  have hin2' : isActiveOf w2 td2.type e1 = some false := by rw [hty]; exact hin2
  have hscan2 := @scanPool_append w2 td2 L1 L2 e1 hact2 hin2'
  rw [← hbucket2] at hscan2
  cases hE2 : Enable w2 e1 td2 with
  | none =>
    rw [hE2] at hscan2
    simp [Create, hscan2] at h3
  | some p =>
    obtain ⟨e2', w3'⟩ := p
    rw [hE2] at hscan2
    simp only [Create, hscan2, Option.some.injEq, Prod.mk.injEq] at h3
    obtain ⟨rfl, rfl⟩ := h3
    obtain ⟨rfl, hp3, _, hact3, htr3, _⟩ := Enable_inv hE2
    refine ⟨rfl, ?_, ?_, ?_⟩
    · rw [← hty]; exact hact3
    · simp [positionOf, htr3]
    · rw [hp3, hp2]

/-- C1 witness: the scenario empty pool → `Create(STATIC, (1,2,3))` →
`Disable` → `Create(STATIC, (4,5,6))` reuses entity `0`. -/
theorem pool_reuse_create_disable_create_witness :
    (0 : Entity) = 0 ∧
    isActiveOf wEx1r .STATIC 0 = some true ∧
    positionOf wEx1r 0 = some ⟨4, 5, 6⟩ ∧
    (wEx1r.pooled .STATIC).length = (wEx1.pooled .STATIC).length :=
  @pool_reuse_create_disable_create emptyWorld tdS1 tdS2 0 0 wEx1 wEx1d
    wEx1r rfl (by simp [emptyWorld]) rfl rfl rfl

/-- C2 (no premature reuse): with every bucket entry active (so no slot is
reusable), `Create(kind, p1)` followed — while that entity is still active —
by `Create(kind, p2)` returns a distinct second handle and grows the bucket
by exactly one entry. -/
theorem no_premature_reuse {w : World} {td1 td2 : TargetDataObject}
    {e1 e2 : Entity} {w1 w2 : World}
    (hty : td2.type = td1.type)
    (hfresh : ∀ a ∈ w.pooled td1.type, a < w.nextEntity)
    (hall : ∀ a ∈ w.pooled td1.type, isActiveOf w td1.type a = some true)
    (h1 : Create w td1 = some (e1, w1))
    (h2 : Create w1 td2 = some (e2, w2)) :
    e2 ≠ e1 ∧
    (w2.pooled td1.type).length = (w1.pooled td1.type).length + 1 := by
  rw [Create_fresh hall] at h1
  obtain ⟨rfl, rfl⟩ := Prod.mk.injEq .. ▸ Option.some.inj h1
  have hall1 : ∀ a ∈ (createFreshWorld w td1).pooled td2.type,
      isActiveOf (createFreshWorld w td1) td2.type a = some true := by
    rw [hty, createFreshWorld_pooled, if_pos rfl]
    intro a ha
    rcases List.mem_append.mp ha with ha' | ha'
    · have hane : a ≠ w.nextEntity := Nat.ne_of_lt (hfresh a ha')
      obtain ⟨_, hsf, hmf⟩ := createFreshWorld_frame w td1 a hane
      rw [isActiveOf_congr hsf hmf]
      exact hall a ha'
    · rw [List.mem_singleton.mp ha']
      exact createFreshWorld_isActive_self w td1
  rw [Create_fresh hall1] at h2
  obtain ⟨rfl, rfl⟩ := Prod.mk.injEq .. ▸ Option.some.inj h2
  constructor
  · rw [createFreshWorld_nextEntity]
    exact Nat.succ_ne_self w.nextEntity
  · rw [createFreshWorld_pooled, hty, if_pos rfl, List.length_append,
      List.length_singleton]

/-- C2 witness: on the empty pool, `Create(STATIC, (1,2,3))` then
`Create(STATIC, (4,5,6))` allocates entities `0` and `1`. -/
theorem no_premature_reuse_witness :
    (1 : Entity) ≠ 0 ∧
    (wEx1b.pooled .STATIC).length = (wEx1.pooled .STATIC).length + 1 :=
  @no_premature_reuse emptyWorld tdS1 tdS2 0 1 wEx1 wEx1b
    rfl (by simp [emptyWorld]) (by simp [emptyWorld]) rfl rfl

/-- C7 (fresh-creation initialization): when no bucket entry of the
requested kind is inactive, `Create` allocates the next fresh entity
positioned at the requested position, attaches `isActive = true` for a
static target resp. `isActive = true, isProcessing = false, indexCur = 0`
(with schema defaults elsewhere) for a moving target, appends the handle to
the matching bucket, and returns it. -/
theorem fresh_creation_initialization {w : World} {td : TargetDataObject}
    (hall : ∀ a ∈ w.pooled td.type, isActiveOf w td.type a = some true) :
    Create w td = some (w.nextEntity, createFreshWorld w td) ∧
    positionOf (createFreshWorld w td) w.nextEntity = some td.pos ∧
    (createFreshWorld w td).pooled td.type =
      w.pooled td.type ++ [w.nextEntity] ∧
    (td.type = .STATIC →
      (createFreshWorld w td).staticComp w.nextEntity = some ⟨true⟩) ∧
    (td.type = .MOVING →
      (createFreshWorld w td).movingComp w.nextEntity =
        some ⟨true, false, 0, 0, [], ⟨0, 0, 0⟩⟩) :=
  ⟨Create_fresh hall,
   by simp [positionOf, createFreshWorld_transform_self],
   by rw [createFreshWorld_pooled, if_pos rfl],
   createFreshWorld_static_self w td,
   createFreshWorld_moving_self w td⟩

/-- C7 witness: creating a moving target in a state whose moving bucket is
empty allocates entity `1` with the freshly initialised component record. -/
theorem fresh_creation_initialization_witness :
    Create wEx1 tdM1 = some (1, wEx2) ∧
    positionOf wEx2 1 = some ⟨7, 8, 9⟩ ∧
    wEx2.pooled .MOVING = wEx1.pooled .MOVING ++ [1] ∧
    (TARGET_TYPE.MOVING = .STATIC → wEx2.staticComp 1 = some ⟨true⟩) ∧
    (TARGET_TYPE.MOVING = .MOVING →
      wEx2.movingComp 1 = some ⟨true, false, 0, 0, [], ⟨0, 0, 0⟩⟩) :=
  @fresh_creation_initialization wEx1 tdM1 (by decide)

/-- C9 (destroy frame): `Destroy` removes the entity's state from the engine
substrate but leaves both pool buckets unchanged and touches no other
entity's state. -/
theorem destroy_frame (w : World) (e : Entity) :
    (Destroy w e).pooled = w.pooled ∧
    (Destroy w e).transform e = none ∧
    (Destroy w e).staticComp e = none ∧
    (Destroy w e).movingComp e = none ∧
    (∀ a, a ≠ e → (Destroy w e).transform a = w.transform a ∧
      (Destroy w e).staticComp a = w.staticComp a ∧
      (Destroy w e).movingComp a = w.movingComp a) := by
  refine ⟨rfl, by simp [Destroy], by simp [Destroy], by simp [Destroy], ?_⟩
  intro a ha
  simp [Destroy, ha]

/-- C9 witness: destroying entity `0` in the two-entity state leaves the
buckets and entity `1`'s state untouched. -/
theorem destroy_frame_witness :
    (Destroy wEx2 0).pooled = wEx2.pooled ∧
    (Destroy wEx2 0).transform 0 = none ∧
    (Destroy wEx2 0).staticComp 0 = none ∧
    (Destroy wEx2 0).movingComp 0 = none ∧
    ((Destroy wEx2 0).transform 1 = wEx2.transform 1 ∧
      (Destroy wEx2 0).staticComp 1 = wEx2.staticComp 1 ∧
      (Destroy wEx2 0).movingComp 1 = wEx2.movingComp 1) :=
  ⟨(destroy_frame wEx2 0).1, (destroy_frame wEx2 0).2.1,
   (destroy_frame wEx2 0).2.2.1, (destroy_frame wEx2 0).2.2.2.1,
   (destroy_frame wEx2 0).2.2.2.2 1 (by decide)⟩

/-- Invariants of one `DisableAll` bucket pass: buckets preserved, every
visited entity ends inactive (moving ones also not processing), already
cleared flags stay cleared, and the store of the other kind is untouched. -/
theorem disableLoop_inv {i : TARGET_TYPE} {L : List Entity} {w w' : World}
    (h : disableLoop i w L = some w') :
    w'.pooled = w.pooled ∧
    (∀ e ∈ L, isActiveOf w' i e = some false ∧
      (i = .MOVING → (w'.movingComp e).map (·.isProcessing) = some false)) ∧
    (∀ a, isActiveOf w i a = some false → isActiveOf w' i a = some false) ∧
    (∀ a, (w.movingComp a).map (·.isProcessing) = some false →
      (w'.movingComp a).map (·.isProcessing) = some false) ∧
    (i = .STATIC → ∀ a, w'.movingComp a = w.movingComp a) ∧
    (i = .MOVING → ∀ a, w'.staticComp a = w.staticComp a) := by
  induction L generalizing w with
  | nil =>
    obtain rfl := Option.some.inj h
    exact ⟨rfl, by simp, fun a ha => ha, fun a ha => ha,
      fun _ a => rfl, fun _ a => rfl⟩
  | cons e rest ih =>
    cases hD : Disable w e i with
    | none => simp [disableLoop, hD] at h
    | some wa =>
      simp only [disableLoop, hD, Option.some_bind] at h
      obtain ⟨hpD, _, hinD, hprD, htD, hfrD, hmD, hsD⟩ := Disable_inv hD
      obtain ⟨hpI, hvis, hactI, hprI, hmI, hsI⟩ := ih h
      have hstep_act : ∀ a, isActiveOf w i a = some false →
          isActiveOf wa i a = some false := by
        intro a ha
        by_cases hae : a = e
        · exact hae ▸ hinD
        · obtain ⟨_, hsf, hmf⟩ := hfrD a hae
          rw [isActiveOf_congr hsf hmf]
          exact ha
      have hstep_pr : ∀ a, (w.movingComp a).map (·.isProcessing) = some false →
          (wa.movingComp a).map (·.isProcessing) = some false := by
        intro a ha
        by_cases hae : a = e
        · subst hae
          cases i with
          | STATIC => rw [hmD rfl a]; exact ha
          | MOVING => exact hprD rfl
        · obtain ⟨_, _, hmf⟩ := hfrD a hae
          rw [hmf]
          exact ha
      refine ⟨hpI.trans hpD, ?_, ?_, ?_, ?_, ?_⟩
      · intro e' he'
        rcases List.mem_cons.mp he' with rfl | he''
        · exact ⟨hactI e' hinD, fun hi => hprI e' (hprD hi)⟩
        · exact hvis e' he''
      · exact fun a ha => hactI a (hstep_act a ha)
      · exact fun a ha => hprI a (hstep_pr a ha)
      · intro hi a
        rw [hmI hi a, hmD hi a]
      · intro hi a
        rw [hsI hi a, hsD hi a]

/-- After a successful `DisableAll`, the buckets are unchanged and every
bucket entry's component of the matching kind reads inactive (and, for the
moving bucket, not processing). -/
theorem DisableAll_inv {w w' : World} (h : DisableAll w = some w') :
    w'.pooled = w.pooled ∧
    (∀ e ∈ w'.pooled .STATIC, isActiveOf w' .STATIC e = some false) ∧
    (∀ e ∈ w'.pooled .MOVING, isActiveOf w' .MOVING e = some false ∧
      (w'.movingComp e).map (·.isProcessing) = some false) := by
  cases hA : disableLoop .STATIC w (w.pooled .STATIC) with
  | none => simp [DisableAll, hA] at h
  | some wa =>
    simp only [DisableAll, hA, Option.some_bind] at h
    obtain ⟨hpA, hvisA, _, _, hmA, _⟩ := disableLoop_inv hA
    obtain ⟨hpB, hvisB, hactB, _, _, hsB⟩ := disableLoop_inv h
    refine ⟨hpB.trans hpA, ?_, ?_⟩
    · intro e he
      rw [hpB, hpA] at he
      have h1 := hvisA e he
      have h2 : isActiveOf w' .STATIC e = isActiveOf wa .STATIC e := by
        simp [isActiveOf, hsB rfl e]
      rw [h2]
      exact h1.1
    · intro e he
      rw [hpB] at he
      exact ⟨(hvisB e he).1, (hvisB e he).2 rfl⟩

/-- Function `Destroy` leaves the pool buckets untouched. -/
theorem Destroy_pooled (w : World) (e : Entity) :
    (Destroy w e).pooled = w.pooled := rfl

/-- The pop-and-destroy loop empties its own bucket and leaves the other
bucket untouched. -/
theorem destroyLoop_pooled (i : TARGET_TYPE) (w : World) (j : TARGET_TYPE) :
    (destroyLoop i w).pooled j = if j = i then [] else w.pooled j := by
  generalize hn : (w.pooled i).length = n
  induction n generalizing w with
  | zero =>
    rw [destroyLoop, dif_neg (by omega)]
    by_cases hj : j = i
    · subst hj
      simp [List.length_eq_zero.mp hn]
    · simp [hj]
  | succ n ih =>
    rw [destroyLoop, dif_pos (by omega)]
    rw [ih _ (by simp [Destroy, List.length_dropLast, hn])]
    by_cases hj : j = i
    · simp [hj]
    · simp [hj, Destroy]

/-- C8 (DisableAll/DestroyAll coverage): after `DisableAll`, every entity in
both pool buckets has `isActive = false` (and every moving entity
additionally `isProcessing = false`); after `DestroyAll`, which pops and
destroys the last element of each bucket until empty, both buckets are
empty. -/
theorem disableAll_destroyAll_coverage {w w' : World}
    (h : DisableAll w = some w') :
    ((∀ e ∈ w'.pooled .STATIC, isActiveOf w' .STATIC e = some false) ∧
     (∀ e ∈ w'.pooled .MOVING, isActiveOf w' .MOVING e = some false ∧
       (w'.movingComp e).map (·.isProcessing) = some false)) ∧
    ((DestroyAll w).pooled .STATIC = [] ∧
     (DestroyAll w).pooled .MOVING = []) := by
  obtain ⟨_, hs, hm⟩ := DisableAll_inv h
  refine ⟨⟨hs, hm⟩, ?_, ?_⟩
  · rw [DestroyAll, destroyLoop_pooled, if_neg (by simp),
      destroyLoop_pooled, if_pos rfl]
  · rw [DestroyAll, destroyLoop_pooled, if_pos rfl]

/-- C8 witness: in the two-entity state, `DisableAll` deactivates the static
entity `0` and the moving entity `1`, and `DestroyAll` empties both buckets.
-/
theorem disableAll_destroyAll_coverage_witness :
    isActiveOf wEx2d .STATIC 0 = some false ∧
    (isActiveOf wEx2d .MOVING 1 = some false ∧
      (wEx2d.movingComp 1).map (·.isProcessing) = some false) ∧
    (DestroyAll wEx2).pooled .STATIC = [] ∧
    (DestroyAll wEx2).pooled .MOVING = [] := by
  obtain ⟨⟨hs, hm⟩, hd⟩ :=
    @disableAll_destroyAll_coverage wEx2 wEx2d rfl
  exact ⟨hs 0 (by decide), hm 1 (by decide), hd⟩

/-- Evaluation of one scheduler step for an active, processing entity whose
current waypoint index is in bounds: conditionally apply the arrival update,
then advance the position by `dt * speed * normal`. -/
theorem step_processing {sqrt : ℚ → ℚ} {dt : ℚ}
    {c : TargetMovingComponentData} {pos wp : Vec3}
    (ha : c.isActive = true) (hp : c.isProcessing = true)
    (hw : c.waypoints.get? c.indexCur = some wp) :
    targetProcessingMoving sqrt dt c pos =
      some (if arrivalTest pos wp then arrivalUpdate sqrt c pos else c,
        if arrivalTest pos wp then
          ⟨pos.x + dt * (arrivalUpdate sqrt c pos).speed *
              (arrivalUpdate sqrt c pos).normal.x,
           pos.y + dt * (arrivalUpdate sqrt c pos).speed *
              (arrivalUpdate sqrt c pos).normal.y,
           pos.z + dt * (arrivalUpdate sqrt c pos).speed *
              (arrivalUpdate sqrt c pos).normal.z⟩
        else
          ⟨pos.x + dt * c.speed * c.normal.x,
           pos.y + dt * c.speed * c.normal.y,
           pos.z + dt * c.speed * c.normal.z⟩) := by
  have hw' : c.waypoints[c.indexCur]? = some wp := by
    rw [← List.get?_eq_getElem?]
    exact hw
  by_cases harr : arrivalTest pos wp
  · simp [targetProcessingMoving, ha, hp, hw', harr]
  · simp [targetProcessingMoving, ha, hp, hw', harr]

/-- The arrival update never touches the waypoint list or the speed. -/
theorem arrivalUpdate_waypoints_speed (sqrt : ℚ → ℚ)
    (c : TargetMovingComponentData) (pos : Vec3) :
    (arrivalUpdate sqrt c pos).waypoints = c.waypoints ∧
    (arrivalUpdate sqrt c pos).speed = c.speed := ⟨rfl, rfl⟩

/-- C3 (arrival tolerance asymmetry): the arrival judgment of the scheduler
holds exactly when each coordinate difference is under its per-axis
tolerance (`0.05` for x and y, `0.02` for z); in particular a position off
its waypoint by `0.04` in y and `0.01` in z counts as arrived, and one off
by `0.06` in y does not. -/
theorem arrival_tolerance_asymmetry :
    (∀ p wp : Vec3, arrivalTest p wp = true ↔
      (|p.x - wp.x| < 0.05 ∧ |p.y - wp.y| < 0.05 ∧ |p.z - wp.z| < 0.02)) ∧
    (∀ wp : Vec3,
      arrivalTest ⟨wp.x, wp.y + 4/100, wp.z + 1/100⟩ wp = true) ∧
    (∀ wp : Vec3, arrivalTest ⟨wp.x, wp.y + 6/100, wp.z⟩ wp = false) := by
  refine ⟨?_, ?_, ?_⟩
  · intro p wp
    simp [arrivalTest, and_assoc]
  · intro wp
    simp only [arrivalTest, Bool.and_eq_true, decide_eq_true_eq]
    norm_num [abs_lt]
  · intro wp
    simp only [arrivalTest, Bool.and_eq_false_iff, decide_eq_false_iff_not]
    norm_num [abs_lt]

/-- C4 (cyclic waypoint advance): when the arrival test succeeds on a tick
for an active, processing entity with an in-bounds waypoint index, the index
becomes `(indexCur + 1) mod length(waypoints)` — in particular it stays in
bounds. -/
theorem cyclic_waypoint_advance {sqrt : ℚ → ℚ} {dt : ℚ}
    {c : TargetMovingComponentData} {pos wp : Vec3}
    (ha : c.isActive = true) (hp : c.isProcessing = true)
    (hw : c.waypoints.get? c.indexCur = some wp)
    (harr : arrivalTest pos wp = true) :
    ∃ c' pos', targetProcessingMoving sqrt dt c pos = some (c', pos') ∧
      c'.indexCur = (c.indexCur + 1) % c.waypoints.length ∧
      c'.waypoints = c.waypoints ∧
      c'.indexCur < c.waypoints.length := by
  have hlt : c.indexCur < c.waypoints.length := by
    rcases List.get?_eq_some.mp hw with ⟨hlt, _⟩
    exact hlt
  rw [step_processing ha hp hw, if_pos harr, if_pos harr]
  have hidx : (arrivalUpdate sqrt c pos).indexCur =
      (c.indexCur + 1) % c.waypoints.length := by
    show (if c.waypoints.length ≤ c.indexCur + 1 then 0 else c.indexCur + 1) =
      (c.indexCur + 1) % c.waypoints.length
    by_cases hle : c.waypoints.length ≤ c.indexCur + 1
    · have heq : c.indexCur + 1 = c.waypoints.length := le_antisymm hlt hle
      rw [if_pos hle, heq, Nat.mod_self]
    · rw [if_neg hle, Nat.mod_eq_of_lt (Nat.lt_of_not_le hle)]
  refine ⟨_, _, rfl, hidx, rfl, ?_⟩
  rw [hidx]
  exact Nat.mod_lt _ (Nat.lt_of_le_of_lt (Nat.zero_le c.indexCur) hlt)

/-- C5 (idle motion): an inactive or non-processing moving entity is left
untouched by any number of scheduler ticks, for any `dt ≥ 0`. -/
theorem idle_motion {sqrt : ℚ → ℚ} {dt : ℚ}
    {c : TargetMovingComponentData} {pos : Vec3} (n : Nat) (hdt : 0 ≤ dt)
    (h : c.isActive = false ∨ c.isProcessing = false) :
    tickN sqrt dt n (c, pos) = some (c, pos) := by
  induction n with
  | zero => rfl
  | succ n ih =>
    have hstep : targetProcessingMoving sqrt dt c pos = some (c, pos) := by
      rcases h with h | h <;> simp [targetProcessingMoving, h]
    simp [tickN, hstep, ih]

/-- C5 witness: a processing-off component stays put over four ticks of
`dt = 2`. -/
theorem idle_motion_witness :
    tickN (fun _ => 0) 2 4 (cIdle, ⟨0, 0, 0⟩) = some (cIdle, ⟨0, 0, 0⟩) :=
  idle_motion 4 (by norm_num) (Or.inr rfl)

/-- C6 (scale of motion): on a tick of an active, processing entity, after
the (possible) arrival update with resulting component `c'`, the position
advances componentwise by `dt * speed * c'.normal`, whether or not arrival
occurred. -/
theorem scale_of_motion {sqrt : ℚ → ℚ} {dt : ℚ}
    {c : TargetMovingComponentData} {pos wp : Vec3}
    (ha : c.isActive = true) (hp : c.isProcessing = true)
    (hw : c.waypoints.get? c.indexCur = some wp) :
    ∃ c', targetProcessingMoving sqrt dt c pos =
        some (c', ⟨pos.x + dt * c.speed * c'.normal.x,
                   pos.y + dt * c.speed * c'.normal.y,
                   pos.z + dt * c.speed * c'.normal.z⟩) ∧
      (arrivalTest pos wp = true → c' = arrivalUpdate sqrt c pos) ∧
      (arrivalTest pos wp = false → c' = c) := by
  rw [step_processing ha hp hw]
  by_cases harr : arrivalTest pos wp
  · rw [if_pos harr, if_pos harr]
    exact ⟨arrivalUpdate sqrt c pos, rfl, fun _ => rfl,
      fun hf => absurd harr (by simp [hf])⟩
  · rw [if_neg harr, if_neg harr]
    exact ⟨c, rfl, fun ht => absurd ht harr, fun _ => rfl⟩

/-- C6 witness: speed `2`, `dt = 1/2`, direction `(1,0,0)`, no arrival: one
tick moves the position by exactly `(1, 0, 0)`. -/
theorem scale_of_motion_witness :
    targetProcessingMoving (fun _ => 0) (1/2) cCruise ⟨0, 0, 0⟩ =
      some (cCruise, ⟨1, 0, 0⟩) := by
  obtain ⟨c', hstep, _, hno⟩ :=
    @scale_of_motion (fun _ => 0) (1/2) cCruise ⟨0, 0, 0⟩ ⟨100, 0, 0⟩
      rfl rfl rfl
  have hF : arrivalTest ⟨0, 0, 0⟩ ⟨100, 0, 0⟩ = false := by
    simp only [arrivalTest, Bool.and_eq_false_iff, decide_eq_false_iff_not]
    norm_num [abs_lt]
  rw [hno hF] at hstep
  rw [hstep]
  norm_num [cCruise]

/-- C4 witness: waypoints `[A, B]`, index `1`, position on `B`: arrival
advances the index to `(1+1) mod 2 = 0`, in bounds. -/
theorem cyclic_waypoint_advance_witness :
    ∃ c' pos',
      targetProcessingMoving (fun _ => 0) 1 cArrive ⟨10, 0, 0⟩ =
        some (c', pos') ∧
      c'.indexCur = (cArrive.indexCur + 1) % cArrive.waypoints.length ∧
      c'.waypoints = cArrive.waypoints ∧
      c'.indexCur < cArrive.waypoints.length := by
  refine cyclic_waypoint_advance rfl rfl rfl ?_
  simp only [arrivalTest, Bool.and_eq_true, decide_eq_true_eq]
  norm_num [abs_lt, cArrive]

/-- C10 (implicit: a freshly created moving target never moves): `Create`
leaves a fresh moving entity's cached direction at the schema-default zero
vector, and the scheduler recomputes it only on a successful arrival test;
hence an entity whose position fails the arrival test against its current
waypoint adds zero to its position on every tick — whatever its speed,
processing flag, `dt`, or number of ticks. -/
theorem fresh_moving_never_moves :
    (∀ (w : World) (td : TargetDataObject) (e : Entity) (w' : World),
      td.type = .MOVING →
      (∀ a ∈ w.pooled td.type, isActiveOf w td.type a = some true) →
      Create w td = some (e, w') →
      (w'.movingComp e).map (·.normal) = some ⟨0, 0, 0⟩) ∧
    (∀ (sqrt : ℚ → ℚ) (dt : ℚ) (n : Nat) (c : TargetMovingComponentData)
      (pos wp : Vec3),
      c.normal = ⟨0, 0, 0⟩ →
      c.waypoints.get? c.indexCur = some wp →
      arrivalTest pos wp = false →
      tickN sqrt dt n (c, pos) = some (c, pos)) := by
  constructor
  · intro w td e w' hty hall h
    rw [Create_fresh hall] at h
    obtain ⟨rfl, rfl⟩ := Prod.mk.injEq .. ▸ Option.some.inj h
    rw [createFreshWorld_moving_self w td hty]
    rfl
  · intro sqrt dt n c pos wp hn hw harr
    induction n with
    | zero => rfl
    | succ n ih =>
      have hstep : targetProcessingMoving sqrt dt c pos = some (c, pos) := by
        cases hact : c.isActive with
        | false => simp [targetProcessingMoving, hact]
        | true =>
          cases hpr : c.isProcessing with
          | false => simp [targetProcessingMoving, hact, hpr]
          | true =>
            rw [step_processing hact hpr hw, if_neg (by simp [harr]),
              if_neg (by simp [harr])]
            rw [hn]
            norm_num
      simp [tickN, hstep, ih]

/-- C10 witness: the moving entity `1` fresh from `Create` has a zero
direction vector, and a zero-direction component off its waypoint stays put
over three ticks. -/
theorem fresh_moving_never_moves_witness :
    (wEx2.movingComp 1).map (·.normal) = some ⟨0, 0, 0⟩ ∧
    tickN (fun _ => 0) 1 3 (cZero, ⟨0, 0, 0⟩) = some (cZero, ⟨0, 0, 0⟩) :=
  ⟨fresh_moving_never_moves.1 wEx1 tdM1 1 wEx2 rfl (by decide) rfl,
   fresh_moving_never_moves.2 (fun _ => 0) 1 3 cZero ⟨0, 0, 0⟩ ⟨100, 0, 0⟩
    rfl rfl (by
      simp only [arrivalTest, Bool.and_eq_false_iff, decide_eq_false_iff_not]
      norm_num [abs_lt])⟩

end TargetObject
